import Mathlib

/-!
Verification of the toy-router core (two-port user-space IPv4 router)
against its natural-language specification.

The development shallowly embeds the C++ source:
  * `netutil.cpp`   : Checksum / Checksum2 / CheckIPChecksum / SendArpRequest
  * `send_buf.cpp`  : AppendSendData / GetSendData / FreeSendData
  * `ip2mac.cpp`    : GetIp2Mac / AppendSendReqData / GetSendReqData /
                      BufferSendOne / BufferSend
  * `router.cpp`    : AnalyzePacket / SendIcmpTimeExceeded

Byte buffers are `List Nat` (each element a byte value), IPv4 addresses are
their four bytes in memory (network) order, MAC addresses their six bytes.
Machine integers are modelled as `Nat` with explicit `% 2^w` where overflow
can occur.
-/

namespace ToyRouter

/-! ## Flags (base.hpp) -/

def FLAG_FREE : Int := 0
def FLAG_OK : Int := 1
def FLAG_NG : Int := -1

/-! ## Checksums (netutil.cpp)

`NetworkUtil::Checksum` accumulates `data[i] + (data[i+1] << 8)` over pairs
of bytes (a lone trailing byte contributes only itself) into a `u_int32_t`,
folds the carries twice, complements, and truncates to 16 bits.
`wordSum` is the accumulation loop; the fold/complement tail is shared
verbatim by `Checksum` and `Checksum2` in the source, and `csumFold` models
that shared tail. -/

def wordSum : List Nat → Nat
  | [] => 0
  | [a] => a
  | a :: b :: rest => (a + b * 256) + wordSum rest

/-- One step of `sum = (sum & 0xffff) + (sum >> 16)`. -/
def foldCarry (s : Nat) : Nat := s % 65536 + s / 65536

/-- The accumulated 32-bit sum after the two fold steps (the `u_int32_t`
accumulation wraps at `2^32`). -/
def ipSum (s : Nat) : Nat := foldCarry (foldCarry (s % 4294967296))

/-- Complement of the folded sum, truncated to `u_int16_t` exactly as the
source's `return ~sum;` does. -/
def csumFold (s : Nat) : Nat := (4294967295 - ipSum s) % 65536

/-- `NetworkUtil::Checksum(data, len)` over a whole byte buffer. -/
def Checksum (data : List Nat) : Nat := csumFold (wordSum data)

/-- `NetworkUtil::Checksum2(data1, len1, data2, len2)`: two independent
byte loops feeding one accumulator, then the same fold/complement tail. -/
def Checksum2 (data1 data2 : List Nat) : Nat :=
  csumFold (wordSum data1 + wordSum data2)

/-- Zero the checksum field of a copied IP header: `buf[10] = 0; buf[11] = 0;`
in `NetworkUtil::CheckIPChecksum`. -/
def zeroChecksumField (hdr : List Nat) : List Nat := (hdr.set 10 0).set 11 0

/-- `NetworkUtil::CheckIPChecksum(iphdr, option, optionLen)`: re-sum the
header (checksum field zeroed) plus options and accept 0 or 0xFFFF. -/
def CheckIPChecksum (hdr option : List Nat) : Bool :=
  let sum := Checksum (zeroChecksumField hdr ++ option)
  sum == 0 || sum == 65535

/-- Overwrite a 16-bit field at byte offset `k` with checksum value `c`,
stored in the byte order the source uses for `u_int16_t` stores
(low byte first). -/
def setField (B : List Nat) (k c : Nat) : List Nat :=
  (B.set k (c % 256)).set (k + 1) (c / 256)

/-! ## Send buffer (base.hpp / send_buf.cpp)

A `DataBuf` node carries a creation time, a size and the copied bytes;
`AppendSendData` copies `size` bytes, so the node's size field equals the
length of its data. The doubly-linked `top`/`bottom` pointers implement a
FIFO; it is modelled as a list whose head is `top` (pop side) and whose
last element is `bottom` (append side). -/

structure DataBufN where
  time : Nat
  size : Nat
  data : List Nat
deriving DecidableEq, Inhabited

structure SendDataS where
  queue : List DataBufN
  data_num : Nat
  in_bucket_size : Nat
deriving DecidableEq, Inhabited

def emptySendData : SendDataS := ⟨[], 0, 0⟩

/-- `SendBuf::AppendSendData`: allocate a node holding a copy of the frame,
link it at `bottom`, bump `data_num` and `in_bucket_size`. The `deviceNo`
and `addr` arguments of the source are unused by its body and omitted. -/
def appendSendData (s : SendDataS) (now : Nat) (frame : List Nat) : SendDataS :=
  { queue := s.queue ++ [⟨now, frame.length, frame⟩],
    data_num := s.data_num + 1,
    in_bucket_size := s.in_bucket_size + frame.length }

/-- `SendBuf::GetSendData`: pop the `top` node, returning its size and data
and decrementing the counters; fails (returns −1) on an empty queue. -/
def getSendData (s : SendDataS) : Option ((Nat × List Nat) × SendDataS) :=
  match s.queue with
  | [] => none
  | buf :: rest =>
      some ((buf.size, buf.data),
        { queue := rest,
          data_num := s.data_num - 1,
          in_bucket_size := s.in_bucket_size - buf.size })

/-- `SendBuf::FreeSendData`: drop every node and reset both counters. -/
def freeSendData (_s : SendDataS) : SendDataS := ⟨[], 0, 0⟩

/-- One send-buffer operation, for stating the C9 conservation invariant
over arbitrary operation sequences. -/
inductive BufOp
  | append (now : Nat) (frame : List Nat)
  | getData
  | freeData

def applyBufOp (s : SendDataS) : BufOp → SendDataS
  | .append now frame => appendSendData s now frame
  | .getData =>
      match getSendData s with
      | some (_, s2) => s2
      | none => s
  | .freeData => freeSendData s

/-- Conservation invariant of a send queue: `data_num` counts the nodes and
`in_bucket_size` totals their size fields. -/
def sendDataInv (s : SendDataS) : Prop :=
  s.data_num = s.queue.length ∧
  s.in_bucket_size = (s.queue.map DataBufN.size).sum

/-! ## ARP resolution cache (base.hpp / ip2mac.cpp) -/

structure IP2MAC where
  flag : Int
  device_number : Nat
  ip_addr : List Nat
  hw_addr : List Nat
  lastTime : Nat
  send_data : SendDataS
deriving DecidableEq, Inhabited

/-- A slot as produced by the `IP2MAC` constructor: `FLAG_FREE`, zeroed
address fields, empty send queue. The `IP2MACManager` constructor resets
every slot's flag to `FLAG_FREE`. -/
def freshIp2Mac : IP2MAC :=
  ⟨FLAG_FREE, 0, [0, 0, 0, 0], [0, 0, 0, 0, 0, 0], 0, emptySendData⟩

/-- Match test of the two linear scans in `Search` / `GetIp2Mac`:
a non-FREE slot holding the (device, ip) key. -/
def ip2macMatch (dev : Nat) (addr : List Nat) (e : IP2MAC) : Bool :=
  e.flag != FLAG_FREE && e.device_number == dev && e.ip_addr == addr

/-- Index of the first element satisfying the predicate, as the source's
front-to-back `for` scans find it. -/
def firstMatch (p : α → Bool) : List α → Option Nat
  | [] => none
  | a :: rest => if p a then some 0 else (firstMatch p rest).map (· + 1)

/-- Index `std::min_element` with the `lastTime` comparator returns: the
first index whose `lastTime` is minimal (later elements replace the
running minimum only when strictly smaller). -/
def lruIdx : List IP2MAC → Nat
  | [] => 0
  | [_] => 0
  | e :: rest =>
      let j := lruIdx rest
      if (rest.getD j default).lastTime < e.lastTime then j + 1 else 0

def modifyAt (l : List α) (i : Nat) (f : α → α) : List α :=
  match l[i]? with
  | some a => l.set i (f a)
  | none => l

/-- Hit path of `GetIp2Mac`: refresh `lastTime`, copy the MAC in only when
one was passed. The flag is left unchanged. -/
def touchEntry (e : IP2MAC) (hwaddr : Option (List Nat)) (now : Nat) : IP2MAC :=
  { e with lastTime := now,
           hw_addr := match hwaddr with | some m => m | none => e.hw_addr }

/-- Insert/overwrite path of `GetIp2Mac` (free slot or LRU victim): the slot
becomes `FLAG_OK` with the new key and a fresh `lastTime`; the MAC is copied
only when one was passed, and the send queue is left untouched. -/
def claimEntry (e : IP2MAC) (dev : Nat) (addr : List Nat)
    (hwaddr : Option (List Nat)) (now : Nat) : IP2MAC :=
  { e with flag := FLAG_OK, device_number := dev, ip_addr := addr, lastTime := now,
           hw_addr := match hwaddr with | some m => m | none => e.hw_addr }

/-- `IP2MACManager::GetIp2Mac(deviceNo, addr, hwaddr)`: scan for a live
match, else take the first free slot, else overwrite the slot
`std::min_element` selects by `lastTime`; `nullptr` (`none`) only when the
table has no slots at all. Returns the index of the returned entry and the
updated table. -/
def GetIp2Mac (table : List IP2MAC) (dev : Nat) (addr : List Nat)
    (hwaddr : Option (List Nat)) (now : Nat) : Option (Nat × List IP2MAC) :=
  match firstMatch (ip2macMatch dev addr) table with
  | some i => some (i, modifyAt table i (fun e => touchEntry e hwaddr now))
  | none =>
    match firstMatch (fun e => e.flag == FLAG_FREE) table with
    | some i => some (i, modifyAt table i (fun e => claimEntry e dev addr hwaddr now))
    | none =>
      if table = [] then none
      else some (lruIdx table,
        modifyAt table (lruIdx table) (fun e => claimEntry e dev addr hwaddr now))

/-! ## Resolution-request queue and flush (ip2mac.cpp) -/

structure ManagerState where
  table : List IP2MAC
  send_req : List (Nat × Nat)
deriving DecidableEq

/-- `IP2MACManager::BufferSendOne`: the body is a stub — it performs no
socket write and leaves the entry (and its pending queue) untouched,
returning 1. Modelled as producing no writes. -/
def bufferSendOne (_deviceNo : Nat) (_e : IP2MAC) : List (Nat × List Nat) := []

/-- The `while (GetSendReqData(...) == 1)` loop of `IP2MACManager::BufferSend`:
pop requests in FIFO order; for an index inside the table call
`BufferSendOne` (a stub producing nothing). -/
def bufferSendLoop (reqs : List (Nat × Nat)) (table : List IP2MAC)
    (writes : List (Nat × List Nat)) : List IP2MAC × List (Nat × List Nat) :=
  match reqs with
  | [] => (table, writes)
  | (dev, idx) :: rest =>
      if idx < table.length then
        bufferSendLoop rest table (writes ++ bufferSendOne dev (table.getD idx default))
      else
        bufferSendLoop rest table writes

/-- `IP2MACManager::BufferSend`: drain the whole request queue. -/
def bufferSend (st : ManagerState) : ManagerState × List (Nat × List Nat) :=
  let r := bufferSendLoop st.send_req st.table []
  (⟨r.1, []⟩, r.2)

/-! ## Forwarding engine (router.cpp)

Frames are flat byte lists starting at `ether_dhost`. IPv4 addresses and
MAC addresses are their bytes in memory (network) order; multi-byte header
fields written through `htons` therefore appear high byte first. -/

structure Iface where
  hw_addr : List Nat
  ip_addr : List Nat
  subnet : List Nat
  netmask : List Nat
deriving DecidableEq

structure RouterEnv where
  iface0 : Iface
  iface1 : Iface
  next_router : List Nat
deriving DecidableEq

def ifaceOf (env : RouterEnv) (dev : Nat) : Iface :=
  if dev = 0 then env.iface0 else env.iface1

def ETHERTYPE_ARP : Nat := 2054
def ETHERTYPE_IP : Nat := 2048

/-- `ntohs(eth_hdr->ether_type)`: the two bytes at offsets 12 and 13 read
in network order. -/
def etherTypeOf (frame : List Nat) : Nat := frame.getD 12 0 * 256 + frame.getD 13 0

/-- Byte-wise `&` of two 32-bit addresses held as byte lists (the carry-free
`u_int32_t` bitwise and). -/
def landBytes (a b : List Nat) : List Nat := List.zipWith (fun x y => x &&& y) a b

/-- Egress-device decision of `Router::AnalyzePacket` (lines 296-303):
destination in interface 0's subnet goes to device 0; everything else —
including destinations in interface 1's subnet — goes to device 1. -/
def routeTarget (env : RouterEnv) (daddr : List Nat) : Nat :=
  if landBytes daddr env.iface0.netmask = env.iface0.subnet then 0
  else if landBytes daddr env.iface1.netmask = env.iface1.subnet then 1
  else 1

/-- Next-hop selection of `Router::AnalyzePacket` (lines 330-336): the
destination itself for device 0, the configured next router otherwise. -/
def nextHop (env : RouterEnv) (target : Nat) (daddr : List Nat) : List Nat :=
  if target = 0 then daddr else env.next_router

/-- `NetworkUtil::SendArpRequest`: broadcast who-has `targetIp` telling the
egress interface's own address. -/
def arpRequestFrame (iface : Iface) (targetIp : List Nat) : List Nat :=
  List.replicate 6 255 ++ iface.hw_addr ++ [8, 6] ++
  [0, 1, 8, 0, 6, 4, 0, 1] ++ iface.hw_addr ++ iface.ip_addr ++
  List.replicate 6 0 ++ targetIp

/-- `Router::SendIcmpTimeExceeded`: Ethernet back to the original sender,
a fresh 20-byte IPv4 header (version 4, IHL 5, `tot_len = htons(sizeof
(struct icmp) + 64)` = htons 92, TTL 64, protocol 1, source = receiving
interface, destination = original source), then the 8 ICMP bytes (type 11,
code 0, checksum over those 8 bytes followed by 64 bytes starting at the
original IP header) and those 64 original bytes. -/
def icmpTimeExceededFrame (env : RouterEnv) (dev : Nat) (frame : List Nat) : List Nat :=
  let iface := ifaceOf env dev
  let saddrOrig := (frame.drop 26).take 4
  let ck := Checksum ([69, 0, 0, 92, 0, 0, 0, 0, 64, 1, 0, 0] ++
    iface.ip_addr ++ saddrOrig)
  let origIp := (frame.drop 14).take 64
  let ick := Checksum2 [11, 0, 0, 0, 0, 0, 0, 0] origIp
  (frame.drop 6).take 6 ++ iface.hw_addr ++ [8, 0] ++
  ([69, 0, 0, 92, 0, 0, 0, 0, 64, 1, ck % 256, ck / 256] ++
    iface.ip_addr ++ saddrOrig) ++
  [11, 0, ick % 256, ick / 256, 0, 0, 0, 0] ++ origIp

/-- The forwarded frame `Router::AnalyzePacket` assembles into
`forward_buf`: Ethernet header (`ether_dhost` is uninitialized in the
source and modelled as zeros — the FLAG_OK path overwrites it before
writing), the IP header with TTL decremented and the checksum recomputed
over header plus options, the options, and the rest of the packet. -/
def buildForward (env : RouterEnv) (target : Nat) (frame : List Nat)
    (optLen : Nat) : List Nat :=
  let ipHdr1 := ((((frame.drop 14).take 20).set 8 (frame.getD 22 0 - 1)).set 10 0).set 11 0
  let optB := (frame.drop 34).take optLen
  let v := Checksum2 ipHdr1 optB
  let ipHdr2 := (ipHdr1.set 10 (v % 256)).set 11 (v / 256)
  List.replicate 6 0 ++ (ifaceOf env target).hw_addr ++ [8, 0] ++
  ipHdr2 ++ optB ++ frame.drop (34 + optLen)

/-- Distinct `return -1` sites of `Router::AnalyzePacket`, told apart in the
source by their debug messages. -/
inductive DropReason
  | truncatedEther
  | dhostMismatch
  | truncatedArp
  | truncatedIp
  | optionTooBig
  | ttlExceeded
  | myAddr
  | ip2macNull
  | ip2macNg
deriving DecidableEq

/-- Observable outcome of one `AnalyzePacket` call: the return value
(`none` for 0, `some r` for −1 at site `r`), the ARP table afterwards, and
the frames written, in order, as (device, bytes) pairs. -/
structure StepOut where
  retval : Option DropReason
  table : List IP2MAC
  writes : List (Nat × List Nat)
deriving DecidableEq

/-- IPv4 half of `Router::AnalyzePacket` (from the `ETHERTYPE_IP` dispatch
on): header-length check, option extraction, TTL check with ICMP Time
Exceeded, local-address drop, forwarding decision, TTL/checksum update,
ARP-cache lookup and either an immediate write, an error, or the
(unreachable) pending-enqueue path. -/
def handleIp (env : RouterEnv) (table : List IP2MAC) (now dev : Nat)
    (frame : List Nat) : StepOut :=
  if frame.length - 14 < 20 then ⟨some .truncatedIp, table, []⟩
  else
    let optLen := frame.getD 14 0 % 16 * 4 - 20
    if 0 < optLen ∧ 1500 ≤ optLen then ⟨some .optionTooBig, table, []⟩
    else if frame.getD 22 0 ≤ 1 then
      ⟨some .ttlExceeded, table, [(dev, icmpTimeExceededFrame env dev frame)]⟩
    else
      let daddr := (frame.drop 30).take 4
      if daddr = env.iface0.ip_addr ∨ daddr = env.iface1.ip_addr then
        ⟨some .myAddr, table, []⟩
      else
        let target := routeTarget env daddr
        let nh := nextHop env target daddr
        let fwd := buildForward env target frame optLen
        match GetIp2Mac table target nh none now with
        | none => ⟨some .ip2macNull, table, []⟩
        | some (i, t2) =>
          let e := t2.getD i default
          if e.flag = FLAG_NG then ⟨some .ip2macNg, t2, []⟩
          else if e.flag = FLAG_OK then
            ⟨none, t2, [(target, e.hw_addr ++ fwd.drop 6)]⟩
          else
            let t3 := modifyAt t2 i
              (fun e2 => { e2 with send_data := appendSendData e2.send_data now fwd })
            if e.flag = FLAG_FREE then
              ⟨none, modifyAt t3 i (fun e2 => { e2 with flag := FLAG_OK }),
                [(target, arpRequestFrame (ifaceOf env target) nh)]⟩
            else ⟨none, t3, []⟩

/-- Dispatch on `ether_type` after the destination-MAC filter: passive ARP
learning for REQUEST (`htons 1`) and REPLY (`htons 2`) opcodes, IPv4
forwarding, silent drop otherwise. -/
def dispatchFrame (env : RouterEnv) (table : List IP2MAC) (now dev : Nat)
    (frame : List Nat) : StepOut :=
  if etherTypeOf frame = ETHERTYPE_ARP then
    if frame.length - 14 < 28 then ⟨some .truncatedArp, table, []⟩
    else if (frame.getD 20 0 = 0 ∧ frame.getD 21 0 = 1) ∨
        (frame.getD 20 0 = 0 ∧ frame.getD 21 0 = 2) then
      match GetIp2Mac table dev ((frame.drop 28).take 4)
          (some ((frame.drop 22).take 6)) now with
      | some (_, t2) => ⟨none, t2, []⟩
      | none => ⟨none, table, []⟩
    else ⟨none, table, []⟩
  else if etherTypeOf frame = ETHERTYPE_IP then
    handleIp env table now dev frame
  else ⟨none, table, []⟩

/-- `Router::AnalyzePacket(device_number, data, size)`: Ethernet length
check, destination-MAC filter (the source compares only against the
receiving interface's own MAC), then the ethertype dispatch. -/
def analyzePacket (env : RouterEnv) (table : List IP2MAC) (now dev : Nat)
    (frame : List Nat) : StepOut :=
  if frame.length < 14 then ⟨some .truncatedEther, table, []⟩
  else if frame.take 6 ≠ (ifaceOf env dev).hw_addr then
    ⟨some .dhostMismatch, table, []⟩
  else dispatchFrame env table now dev frame

/-! ## Concrete scenario data (spec section 8 topology)

Interface 0 is 192.168.1.1/24 with MAC 02:00:00:00:00:01, interface 1 is
10.0.0.1/24 with MAC 02:00:00:00:00:10 (hex 10 = 16), the configured next
router is 10.0.0.100. -/

def demoEnv : RouterEnv :=
  ⟨⟨[2, 0, 0, 0, 0, 1], [192, 168, 1, 1], [192, 168, 1, 0], [255, 255, 255, 0]⟩,
   ⟨[2, 0, 0, 0, 0, 16], [10, 0, 0, 1], [10, 0, 0, 0], [255, 255, 255, 0]⟩,
   [10, 0, 0, 100]⟩

/-- An inbound IPv4 frame on port 0 addressed to the router's MAC:
192.168.1.5 → 10.0.0.2, TTL 64, UDP, payload "PING". -/
def demoIpFrame : List Nat :=
  [2, 0, 0, 0, 0, 1] ++ [2, 0, 0, 0, 0, 153] ++ [8, 0] ++
  [69, 0, 0, 24, 0, 0, 0, 0, 64, 17, 0, 0] ++ [192, 168, 1, 5] ++ [10, 0, 0, 2] ++
  [80, 73, 78, 71]

/-- A broadcast ARP request (who-has 192.168.1.1 tell 192.168.1.5) whose
Ethernet destination is ff:ff:ff:ff:ff:ff. -/
def demoBroadcastArpFrame : List Nat :=
  List.replicate 6 255 ++ [2, 0, 0, 0, 0, 153] ++ [8, 6] ++
  [0, 1, 8, 0, 6, 4, 0, 1] ++ [2, 0, 0, 0, 0, 153] ++ [192, 168, 1, 5] ++
  List.replicate 6 0 ++ [192, 168, 1, 1]

/-- A two-slot table with no FREE slot and no entry for the demo keys; the
second slot has the older timestamp and is the LRU victim. -/
def demoFullTable : List IP2MAC :=
  [⟨FLAG_OK, 0, [1, 2, 3, 4], [9, 9, 9, 9, 9, 9], 5, emptySendData⟩,
   ⟨FLAG_OK, 1, [9, 9, 9, 9], [8, 8, 8, 8, 8, 8], 3, emptySendData⟩]

/-- The frame of `demoIpFrame` with TTL 1 and 64 bytes of payload, so the
whole original IP packet region the ICMP reply quotes is present. -/
def demoTtl1Frame : List Nat :=
  [2, 0, 0, 0, 0, 1] ++ [2, 0, 0, 0, 0, 153] ++ [8, 0] ++
  [69, 0, 0, 84, 0, 0, 0, 0, 1, 17, 0, 0] ++ [192, 168, 1, 5] ++ [10, 0, 0, 2] ++
  List.replicate 64 65

end ToyRouter

namespace ToyRouter

/-! ## First theorems: checksum split-equivalence (claim C4 material) -/

theorem wordSum_append_even : ∀ (a b : List Nat), a.length % 2 = 0 →
    wordSum (a ++ b) = wordSum a + wordSum b
  | [], b, _ => by simp [wordSum]
  | [x], b, h => by simp at h
  | x :: y :: rest, b, h => by
      have h2 : rest.length % 2 = 0 := by simp at h; omega
      have ih := wordSum_append_even rest b h2
      simp only [List.cons_append, wordSum, List.append_eq] at ih ⊢
      omega

/-- C4 counterexample: with an odd-length first region the two-region
checksum realigns the second region to a 16-bit boundary instead of
carrying the pairing across it, so `Checksum2 a b` differs from
`Checksum (a ++ b)` already at `a = [1]`, `b = [2]`. -/
theorem checksum2_ne_checksum_append_at_odd :
    Checksum2 [1] [2] ≠ Checksum ([1] ++ [2]) := by decide

/-- C4 (amended): for any byte regions `a` and `b` with `|a|` even,
`Checksum2 a b` equals `Checksum (a ++ b)` bit for bit. (The source sums
the second region starting at a fresh 16-bit boundary, which coincides
with the single-region pairing exactly when `|a|` is even; both its
call sites pass even first-region lengths, 8 and 20.) -/
theorem checksum2_eq_checksum_append_of_even (a b : List Nat)
    (h : a.length % 2 = 0) : Checksum2 a b = Checksum (a ++ b) := by
  unfold Checksum Checksum2
  rw [wordSum_append_even a b h]

theorem checksum2_eq_checksum_append_of_even_witness :
    [1, 2].length % 2 = 0 ∧ Checksum2 [1, 2] [3, 4, 5] = Checksum ([1, 2] ++ [3, 4, 5]) :=
  ⟨by decide, checksum2_eq_checksum_append_of_even [1, 2] [3, 4, 5] (by decide)⟩

/-! ## Checksum round-trip lemmas (claim C8 material) -/

theorem foldCarry_mod_65535 (s : Nat) : foldCarry s % 65535 = s % 65535 := by
  unfold foldCarry; omega

theorem ipSum_le (s : Nat) : ipSum s ≤ 65535 := by
  unfold ipSum foldCarry; omega

theorem ipSum_mod_65535 (s : Nat) (h : s < 4294967296) :
    ipSum s % 65535 = s % 65535 := by
  unfold ipSum
  rw [foldCarry_mod_65535, foldCarry_mod_65535, Nat.mod_eq_of_lt h]

theorem csumFold_eq (s : Nat) : csumFold s = 65535 - ipSum s := by
  have := ipSum_le s
  unfold csumFold; omega

theorem Checksum_le (data : List Nat) : Checksum data ≤ 65535 := by
  have := ipSum_le (wordSum data)
  unfold Checksum csumFold; omega

theorem wordSum_le : ∀ (data : List Nat), (∀ b ∈ data, b < 256) →
    wordSum data ≤ 32768 * data.length
  | [], _ => by simp [wordSum]
  | [a], h => by
      have := h a (by simp)
      simp only [wordSum, List.length_cons, List.length_nil]
      omega
  | a :: b :: rest, h => by
      have ha := h a (by simp)
      have hb := h b (by simp)
      have ih := wordSum_le rest (fun x hx => h x (by simp [hx]))
      simp only [wordSum, List.length_cons]
      omega

theorem wordSum_setField : ∀ (B : List Nat) (k c : Nat), k % 2 = 0 → k + 1 < B.length →
    wordSum (setField B k c) + (B.getD k 0 + 256 * B.getD (k + 1) 0) = wordSum B + c
  | [], k, c, _, hl => by simp at hl
  | [x], k, c, _, hl => by simp at hl
  | x :: y :: rest, 0, c, _, _ => by
      simp only [setField, List.set_cons_zero, List.set_cons_succ, wordSum,
        List.getD_cons_zero, List.getD_cons_succ]
      omega
  | x :: y :: rest, 1, c, hk, _ => by simp at hk
  | x :: y :: rest, (k + 2), c, hk, hl => by
      have ih := wordSum_setField rest k c (by omega) (by simp at hl; omega)
      simp only [setField, List.set_cons_succ, wordSum, List.getD_cons_succ,
        show k + 2 + 1 = (k + 1) + 1 + 1 from rfl] at ih ⊢
      omega

theorem setField_bytes {B : List Nat} {k c : Nat} (hB : ∀ b ∈ B, b < 256)
    (hc : c ≤ 65535) : ∀ b ∈ setField B k c, b < 256 := by
  intro b hb
  rcases List.mem_or_eq_of_mem_set hb with hb1 | rfl
  · rcases List.mem_or_eq_of_mem_set hb1 with hb2 | rfl
    · exact hB b hb2
    · omega
  · omega

/-- C8: writing into the designated (16-bit aligned) checksum field the
value `Checksum` yields when the field is zero makes a re-run of
`Checksum` over the whole buffer produce 0x0000 or 0xFFFF, and
`CheckIPChecksum` accepts exactly those two re-sum values. -/
theorem checksum_roundtrip (B : List Nat) (k : Nat) (hdr opt : List Nat)
    (hbytes : ∀ b ∈ B, b < 256) (hlen : B.length ≤ 65536)
    (hk : k % 2 = 0) (hk1 : k + 1 < B.length) :
    (Checksum (setField B k (Checksum (setField B k 0))) = 0 ∨
      Checksum (setField B k (Checksum (setField B k 0))) = 65535) ∧
    (CheckIPChecksum hdr opt = true ↔
      (Checksum (zeroChecksumField hdr ++ opt) = 0 ∨
       Checksum (zeroChecksumField hdr ++ opt) = 65535)) := by
  constructor
  · have hc_le : Checksum (setField B k 0) ≤ 65535 := Checksum_le _
    have hb0 : ∀ b ∈ setField B k 0, b < 256 := setField_bytes hbytes (by omega)
    have hb1 : ∀ b ∈ setField B k (Checksum (setField B k 0)), b < 256 :=
      setField_bytes hbytes hc_le
    have hlen0 : (setField B k 0).length = B.length := by simp [setField]
    have hlen1 : (setField B k (Checksum (setField B k 0))).length = B.length := by
      simp [setField]
    have hS0le := wordSum_le _ hb0
    have hS1le := wordSum_le _ hb1
    rw [hlen0] at hS0le
    rw [hlen1] at hS1le
    have e0 := wordSum_setField B k 0 hk hk1
    have e1 := wordSum_setField B k (Checksum (setField B k 0)) hk hk1
    have hcval : Checksum (setField B k 0) = 65535 - ipSum (wordSum (setField B k 0)) :=
      csumFold_eq _
    have hgoal : Checksum (setField B k (Checksum (setField B k 0))) =
        65535 - ipSum (wordSum (setField B k (Checksum (setField B k 0)))) :=
      csumFold_eq _
    have m0 := ipSum_mod_65535 (wordSum (setField B k 0)) (by omega)
    have m1 := ipSum_mod_65535 (wordSum (setField B k (Checksum (setField B k 0))))
      (by omega)
    have l0 := ipSum_le (wordSum (setField B k 0))
    have l1 := ipSum_le (wordSum (setField B k (Checksum (setField B k 0))))
    omega
  · unfold CheckIPChecksum
    simp

/-! ## Send-queue conservation (claim C9) -/

theorem applyBufOp_preserves_inv (s : SendDataS) (op : BufOp)
    (h : sendDataInv s) : sendDataInv (applyBufOp s op) := by
  obtain ⟨h1, h2⟩ := h
  cases op with
  | append now frame =>
      refine ⟨?_, ?_⟩ <;> simp [applyBufOp, appendSendData, sendDataInv, h1, h2]
  | getData =>
      unfold applyBufOp getSendData
      cases hq : s.queue with
      | nil => exact ⟨h1, h2⟩
      | cons b rest =>
          rw [hq] at h1 h2
          simp only [List.length_cons, List.map_cons, List.sum_cons] at h1 h2
          exact ⟨by simp [h1], by simp [h2]⟩
  | freeData => exact ⟨rfl, rfl⟩

/-- C9: after any sequence of `AppendSendData` / `GetSendData` /
`FreeSendData` operations starting from the empty queue, `data_num` equals
the number of nodes in the list and `in_bucket_size` equals the sum of the
nodes' size fields. -/
theorem sendBuffer_conservation (ops : List BufOp) :
    sendDataInv (ops.foldl applyBufOp emptySendData) := by
  suffices h : ∀ s, sendDataInv s → sendDataInv (ops.foldl applyBufOp s) from
    h emptySendData ⟨rfl, rfl⟩
  induction ops with
  | nil => intro s hs; simpa using hs
  | cons op rest ih =>
      intro s hs
      exact ih (applyBufOp s op) (applyBufOp_preserves_inv s op hs)

/-! ## ARP-cache scan lemmas -/

theorem firstMatch_eq_none {p : α → Bool} :
    ∀ {l : List α}, firstMatch p l = none → ∀ a ∈ l, p a = false
  | [], _, a, ha => by simp at ha
  | b :: rest, h, a, ha => by
      unfold firstMatch at h
      cases hb : p b with
      | true => rw [hb] at h; simp at h
      | false =>
          rw [hb] at h
          simp only [Bool.false_eq_true, if_false, Option.map_eq_none'] at h
          rcases List.mem_cons.mp ha with rfl | ha2
          · exact hb
          · exact firstMatch_eq_none h a ha2

theorem firstMatch_eq_none_of {p : α → Bool} :
    ∀ (l : List α), (∀ a ∈ l, p a = false) → firstMatch p l = none
  | [], _ => rfl
  | b :: rest, h => by
      unfold firstMatch
      rw [h b (by simp), firstMatch_eq_none_of rest (fun a ha => h a (by simp [ha]))]
      rfl

theorem firstMatch_eq_some {p : α → Bool} :
    ∀ {l : List α} {i : Nat}, firstMatch p l = some i →
      ∃ a, l[i]? = some a ∧ p a = true
  | [], i, h => by simp [firstMatch] at h
  | b :: rest, i, h => by
      unfold firstMatch at h
      cases hb : p b with
      | true =>
          rw [hb] at h
          simp only [if_true, Option.some_inj] at h
          exact h ▸ ⟨b, by simp, hb⟩
      | false =>
          rw [hb] at h
          simp only [Bool.false_eq_true, if_false, Option.map_eq_some'] at h
          obtain ⟨j, hj, rfl⟩ := h
          obtain ⟨a, ha, hpa⟩ := firstMatch_eq_some hj
          exact ⟨a, by simpa using ha, hpa⟩

theorem modifyAt_eq_set {l : List α} {i : Nat} {a : α} (f : α → α)
    (h : l[i]? = some a) : modifyAt l i f = l.set i (f a) := by
  unfold modifyAt; rw [h]

theorem lruIdx_lt : ∀ (l : List IP2MAC), l ≠ [] → lruIdx l < l.length
  | [], h => absurd rfl h
  | [_], _ => by simp [lruIdx]
  | e :: f :: rest, _ => by
      have ih := lruIdx_lt (f :: rest) (by simp)
      unfold lruIdx
      dsimp only
      split
      · simpa using ih
      · simp

theorem lruIdx_min : ∀ (l : List IP2MAC) (j : Nat), j < l.length →
    (l.getD (lruIdx l) default).lastTime ≤ (l.getD j default).lastTime
  | [], j, h => by simp at h
  | [e], j, h => by
      have : j = 0 := by simpa using h
      subst this
      simp [lruIdx]
  | e :: f :: rest, j, h => by
      have ih := fun j hj => lruIdx_min (f :: rest) j hj
      unfold lruIdx
      dsimp only
      split
      · next hlt =>
          cases j with
          | zero =>
              simp only [List.getD_cons_succ, List.getD_cons_zero]
              omega
          | succ jj =>
              simp only [List.getD_cons_succ]
              exact ih jj (by simpa using h)
      · next hge =>
          cases j with
          | zero => simp
          | succ jj =>
              have hj := ih jj (by simpa using h)
              simp only [List.getD_cons_succ, List.getD_cons_zero] at *
              omega

/-! ## GetIp2Mac theorems (claims C10 and C6) -/

/-- C10: on a table with at least one slot whose entries are all FREE or
OK (the only flags the code ever writes — nothing in the repository sets
`FLAG_NG`), `GetIp2Mac` returns a non-null entry whose flag is `FLAG_OK`,
even when it inserts a fresh entry with no MAC passed. -/
theorem getIp2Mac_flag_ok (table : List IP2MAC) (dev : Nat) (addr : List Nat)
    (hwaddr : Option (List Nat)) (now : Nat) (hne : table ≠ [])
    (hinv : ∀ e ∈ table, e.flag = FLAG_FREE ∨ e.flag = FLAG_OK) :
    ∃ i t2 e, GetIp2Mac table dev addr hwaddr now = some (i, t2) ∧
      t2[i]? = some e ∧ e.flag = FLAG_OK := by
  unfold GetIp2Mac
  cases hm : firstMatch (ip2macMatch dev addr) table with
  | some i =>
      obtain ⟨a, ha, hpa⟩ := firstMatch_eq_some hm
      have hflag : a.flag = FLAG_OK := by
        rcases hinv a (List.getElem?_mem ha) with h1 | h1
        · exfalso
          simp [ip2macMatch, h1] at hpa
        · exact h1
      have hi : i < table.length := by
        rcases List.getElem?_eq_some_iff.mp ha with ⟨hlt, _⟩
        exact hlt
      refine ⟨i, _, touchEntry a hwaddr now, rfl, ?_, ?_⟩
      · rw [modifyAt_eq_set _ ha]
        exact List.getElem?_set_self (by simpa using hi)
      · simpa [touchEntry] using hflag
  | none =>
      cases hf : firstMatch (fun e => e.flag == FLAG_FREE) table with
      | some i =>
          obtain ⟨a, ha, _⟩ := firstMatch_eq_some hf
          have hi : i < table.length := by
            rcases List.getElem?_eq_some_iff.mp ha with ⟨hlt, _⟩
            exact hlt
          refine ⟨i, _, claimEntry a dev addr hwaddr now, rfl, ?_, rfl⟩
          rw [modifyAt_eq_set _ ha]
          exact List.getElem?_set_self (by simpa using hi)
      | none =>
          rw [if_neg hne]
          have hlt := lruIdx_lt table hne
          have ha : table[lruIdx table]? = some table[lruIdx table] :=
            List.getElem?_eq_getElem hlt
          refine ⟨lruIdx table, _, claimEntry table[lruIdx table] dev addr hwaddr now,
            rfl, ?_, rfl⟩
          rw [modifyAt_eq_set _ ha]
          exact List.getElem?_set_self (by simpa using hlt)

theorem getIp2Mac_flag_ok_witness :
    ((List.replicate 2 freshIp2Mac : List IP2MAC) ≠ [] ∧
      (∀ e ∈ (List.replicate 2 freshIp2Mac : List IP2MAC),
        e.flag = FLAG_FREE ∨ e.flag = FLAG_OK)) ∧
    (∃ i t2 e, GetIp2Mac (List.replicate 2 freshIp2Mac) 1 [10, 0, 0, 100] none 7 =
        some (i, t2) ∧ t2[i]? = some e ∧ e.flag = FLAG_OK) :=
  ⟨⟨by decide, by decide⟩,
    getIp2Mac_flag_ok (List.replicate 2 freshIp2Mac) 1 [10, 0, 0, 100] none 7
      (by decide) (by decide)⟩

/-- C6 counterexample: a full one-slot table holds a victim with one
pending frame; `GetIp2Mac` overwrites the slot with the new key but the
pending queue still holds that frame afterwards — it is not discarded. -/
theorem lru_overwrite_keeps_pending :
    GetIp2Mac [⟨FLAG_OK, 0, [1, 2, 3, 4], [9, 9, 9, 9, 9, 9], 5,
        ⟨[⟨1, 2, [7, 8]⟩], 1, 2⟩⟩] 0 [5, 6, 7, 8] none 10 =
      some (0, [⟨FLAG_OK, 0, [5, 6, 7, 8], [9, 9, 9, 9, 9, 9], 10,
        ⟨[⟨1, 2, [7, 8]⟩], 1, 2⟩⟩]) ∧
    ([⟨1, 2, [7, 8]⟩] : List DataBufN) ≠ [] := by decide

/-- C6 (amended): with no matching live entry and no FREE slot,
`GetIp2Mac` overwrites the slot with the smallest `lastTime` (first such
slot on ties) with the new key, `FLAG_OK` and a fresh timestamp, leaves
every other slot unchanged — and retains the victim's pending send queue
instead of discarding it. -/
theorem getIp2Mac_lru_evict (table : List IP2MAC) (dev : Nat) (addr : List Nat)
    (hwaddr : Option (List Nat)) (now : Nat) (hne : table ≠ [])
    (hnomatch : ∀ e ∈ table, ip2macMatch dev addr e = false)
    (hnofree : ∀ e ∈ table, e.flag ≠ FLAG_FREE) :
    ∃ victim, table[lruIdx table]? = some victim ∧
      (∀ j, j < table.length → victim.lastTime ≤ (table.getD j default).lastTime) ∧
      GetIp2Mac table dev addr hwaddr now =
        some (lruIdx table,
          table.set (lruIdx table) (claimEntry victim dev addr hwaddr now)) ∧
      (claimEntry victim dev addr hwaddr now).flag = FLAG_OK ∧
      (claimEntry victim dev addr hwaddr now).device_number = dev ∧
      (claimEntry victim dev addr hwaddr now).ip_addr = addr ∧
      (claimEntry victim dev addr hwaddr now).lastTime = now ∧
      (claimEntry victim dev addr hwaddr now).send_data = victim.send_data ∧
      (∀ j, j ≠ lruIdx table →
        (table.set (lruIdx table) (claimEntry victim dev addr hwaddr now))[j]? =
          table[j]?) := by
  have hlt := lruIdx_lt table hne
  have ha : table[lruIdx table]? = some table[lruIdx table] :=
    List.getElem?_eq_getElem hlt
  refine ⟨table[lruIdx table], ha, ?_, ?_, rfl, rfl, rfl, rfl, rfl, ?_⟩
  · intro j hj
    have := lruIdx_min table j hj
    have hgd : table.getD (lruIdx table) default = table[lruIdx table] :=
      List.getD_eq_getElem table default hlt
    rw [hgd] at this
    exact this
  · unfold GetIp2Mac
    rw [firstMatch_eq_none_of table hnomatch,
      firstMatch_eq_none_of table (fun a hma => by simpa using hnofree a hma),
      if_neg hne, modifyAt_eq_set _ ha]
  · intro j hj
    exact List.getElem?_set_ne (fun h => hj h.symm)

theorem getIp2Mac_lru_evict_witness :
    (demoFullTable ≠ [] ∧
      (∀ e ∈ demoFullTable, ip2macMatch 0 [5, 6, 7, 8] e = false) ∧
      (∀ e ∈ demoFullTable, e.flag ≠ FLAG_FREE)) ∧
    (∃ victim, demoFullTable[lruIdx demoFullTable]? = some victim ∧
      (∀ j, j < demoFullTable.length →
        victim.lastTime ≤ (demoFullTable.getD j default).lastTime) ∧
      GetIp2Mac demoFullTable 0 [5, 6, 7, 8] none 10 =
        some (lruIdx demoFullTable, demoFullTable.set (lruIdx demoFullTable)
          (claimEntry victim 0 [5, 6, 7, 8] none 10)) ∧
      (claimEntry victim 0 [5, 6, 7, 8] none 10).flag = FLAG_OK ∧
      (claimEntry victim 0 [5, 6, 7, 8] none 10).device_number = 0 ∧
      (claimEntry victim 0 [5, 6, 7, 8] none 10).ip_addr = [5, 6, 7, 8] ∧
      (claimEntry victim 0 [5, 6, 7, 8] none 10).lastTime = 10 ∧
      (claimEntry victim 0 [5, 6, 7, 8] none 10).send_data = victim.send_data ∧
      (∀ j, j ≠ lruIdx demoFullTable →
        (demoFullTable.set (lruIdx demoFullTable)
          (claimEntry victim 0 [5, 6, 7, 8] none 10))[j]? = demoFullTable[j]?)) :=
  ⟨⟨by decide, by decide, by decide⟩,
    getIp2Mac_lru_evict demoFullTable 0 [5, 6, 7, 8] none 10
      (by decide) (by decide) (by decide)⟩

/-! ## Stubbed flush (claim C2) -/

/-- C2 (code evaluation at the failing input): a popped request for a
resolved entry with one pending frame leaves the pending queue untouched
and writes nothing — `BufferSendOne` is a stub, so `BufferSend` only
drains the request queue. -/
theorem bufferSend_stub_leaves_pending :
    bufferSend ⟨[⟨FLAG_OK, 1, [10, 0, 0, 2], [170, 187, 204, 221, 238, 2], 5,
        ⟨[⟨0, 38, [1, 2, 3]⟩], 1, 38⟩⟩], [(1, 0)]⟩ =
      (⟨[⟨FLAG_OK, 1, [10, 0, 0, 2], [170, 187, 204, 221, 238, 2], 5,
        ⟨[⟨0, 38, [1, 2, 3]⟩], 1, 38⟩⟩], []⟩, []) := by decide

/-! ## Dead resolution path (claim C1) -/

/-- C1 (code evaluation at the failing input): an IPv4 frame whose
next-hop has no ARP entry at all (one-slot FREE table) is written
immediately on the egress socket with an all-zero destination MAC; the
fresh entry comes back `FLAG_OK` with an empty pending queue, no ARP
request is emitted and nothing is enqueued. -/
theorem unresolved_nexthop_forwards_immediately :
    analyzePacket demoEnv (List.replicate 1 freshIp2Mac) 7 0 demoIpFrame =
      ⟨none,
        [⟨FLAG_OK, 1, [10, 0, 0, 100], [0, 0, 0, 0, 0, 0], 7, emptySendData⟩],
        [(1, [0, 0, 0, 0, 0, 0] ++ [2, 0, 0, 0, 0, 16] ++ [8, 0] ++
          [69, 0, 0, 24, 0, 0, 0, 0, 63, 17, 176, 38] ++ [192, 168, 1, 5] ++
          [10, 0, 0, 2] ++ [80, 73, 78, 71])]⟩ ∧
    (⟨FLAG_OK, 1, [10, 0, 0, 100], [0, 0, 0, 0, 0, 0], 7, emptySendData⟩ :
      IP2MAC).send_data.queue = [] ∧
    (∀ w ∈ (analyzePacket demoEnv (List.replicate 1 freshIp2Mac) 7 0
        demoIpFrame).writes, etherTypeOf w.2 = ETHERTYPE_IP) := by decide

/-! ## Forwarding decision (claim C3) -/

/-- C3 counterexample: 10.0.0.2 lies in interface 1's subnet, yet the
next hop handed to the ARP lookup is the configured next router
10.0.0.100, not the destination itself. -/
theorem subnet1_nexthop_is_next_router :
    landBytes [10, 0, 0, 2] demoEnv.iface1.netmask = demoEnv.iface1.subnet ∧
    routeTarget demoEnv [10, 0, 0, 2] = 1 ∧
    nextHop demoEnv (routeTarget demoEnv [10, 0, 0, 2]) [10, 0, 0, 2] =
      [10, 0, 0, 100] ∧
    ([10, 0, 0, 100] : List Nat) ≠ [10, 0, 0, 2] := by decide

/-- C3 (amended): destinations in interface 0's subnet egress on device 0
with the destination itself as next hop; every other destination —
including those in interface 1's subnet — egresses on device 1 with the
configured next router as next hop. -/
theorem routeDecision_amended (env : RouterEnv) (daddr : List Nat) :
    (landBytes daddr env.iface0.netmask = env.iface0.subnet →
      routeTarget env daddr = 0 ∧
      nextHop env (routeTarget env daddr) daddr = daddr) ∧
    (landBytes daddr env.iface0.netmask ≠ env.iface0.subnet →
      routeTarget env daddr = 1 ∧
      nextHop env (routeTarget env daddr) daddr = env.next_router) := by
  constructor <;> intro h
  · simp [routeTarget, nextHop, h]
  · have ht : routeTarget env daddr = 1 := by
      unfold routeTarget
      rw [if_neg h]
      split <;> rfl
    rw [ht]
    exact ⟨rfl, rfl⟩

theorem routeDecision_amended_witness :
    (landBytes [192, 168, 1, 77] demoEnv.iface0.netmask = demoEnv.iface0.subnet ∧
      (routeTarget demoEnv [192, 168, 1, 77] = 0 ∧
        nextHop demoEnv (routeTarget demoEnv [192, 168, 1, 77]) [192, 168, 1, 77] =
          [192, 168, 1, 77])) ∧
    (landBytes [10, 0, 0, 2] demoEnv.iface0.netmask ≠ demoEnv.iface0.subnet ∧
      (routeTarget demoEnv [10, 0, 0, 2] = 1 ∧
        nextHop demoEnv (routeTarget demoEnv [10, 0, 0, 2]) [10, 0, 0, 2] =
          demoEnv.next_router)) :=
  ⟨⟨by decide, (routeDecision_amended demoEnv [192, 168, 1, 77]).1 (by decide)⟩,
   ⟨by decide, (routeDecision_amended demoEnv [10, 0, 0, 2]).2 (by decide)⟩⟩

/-! ## Destination-MAC filter (claim C5) -/

/-- C5 counterexample: a broadcast ARP request (destination
ff:ff:ff:ff:ff:ff) is rejected at the destination-MAC check instead of
proceeding to ARP dispatch. -/
theorem broadcast_dhost_rejected :
    demoBroadcastArpFrame.take 6 = List.replicate 6 255 ∧
    etherTypeOf demoBroadcastArpFrame = ETHERTYPE_ARP ∧
    analyzePacket demoEnv (List.replicate 1 freshIp2Mac) 7 0 demoBroadcastArpFrame =
      ⟨some .dhostMismatch, List.replicate 1 freshIp2Mac, []⟩ := by decide

theorem dispatchFrame_retval_ne_dhost (env : RouterEnv) (table : List IP2MAC)
    (now dev : Nat) (frame : List Nat) :
    (dispatchFrame env table now dev frame).retval ≠ some DropReason.dhostMismatch := by
  unfold dispatchFrame handleIp
  split_ifs <;> try simp
  all_goals repeat' split
  all_goals simp

/-- C5 (amended): a frame of Ethernet length is dropped at the
destination-MAC check — with an error return, the table untouched and
nothing written — exactly when its destination MAC differs from the
receiving interface's MAC; the broadcast address gets no special
treatment, so broadcast frames are rejected like any other mismatch. -/
theorem analyzePacket_dhost_filter (env : RouterEnv) (table : List IP2MAC)
    (now dev : Nat) (frame : List Nat) (hlen : 14 ≤ frame.length) :
    (analyzePacket env table now dev frame =
      ⟨some .dhostMismatch, table, []⟩) ↔
    frame.take 6 ≠ (ifaceOf env dev).hw_addr := by
  unfold analyzePacket
  rw [if_neg (by omega)]
  by_cases hd : frame.take 6 ≠ (ifaceOf env dev).hw_addr
  · rw [if_pos hd]
    simp [hd]
  · rw [if_neg hd]
    simp only [hd, iff_false]
    intro hEq
    have hne := dispatchFrame_retval_ne_dhost env table now dev frame
    rw [hEq] at hne
    exact hne rfl

theorem analyzePacket_dhost_filter_witness :
    (14 ≤ demoBroadcastArpFrame.length) ∧
    (analyzePacket demoEnv (List.replicate 1 freshIp2Mac) 7 0 demoBroadcastArpFrame =
      ⟨some .dhostMismatch, List.replicate 1 freshIp2Mac, []⟩) :=
  ⟨by decide,
    (analyzePacket_dhost_filter demoEnv (List.replicate 1 freshIp2Mac) 7 0
      demoBroadcastArpFrame (by decide)).mpr (by decide)⟩

/-! ## ICMP Time Exceeded (claim C7) -/

/-- C7: an accepted IPv4 frame with TTL ≤ 1 is not forwarded; exactly one
frame is written, on the ingress port: the ICMP Time Exceeded reply, whose
IPv4 total-length field holds 92 (`htons(sizeof(struct icmp) + 64)`, bytes
0 and 92 at offsets 16/17), whose ICMP header is type 11, code 0, with the
checksum computed over the 8 ICMP header bytes followed by the 64 bytes
starting at the original frame's IP header. -/
theorem ttl_expired_emits_icmp (env : RouterEnv) (table : List IP2MAC)
    (now dev : Nat) (frame : List Nat)
    (hhw : (ifaceOf env dev).hw_addr.length = 6)
    (hip : (ifaceOf env dev).ip_addr.length = 4)
    (hlen : 78 ≤ frame.length)
    (hdhost : frame.take 6 = (ifaceOf env dev).hw_addr)
    (htype12 : frame.getD 12 0 = 8) (htype13 : frame.getD 13 0 = 0)
    (httl : frame.getD 22 0 ≤ 1) :
    analyzePacket env table now dev frame =
      ⟨some .ttlExceeded, table, [(dev, icmpTimeExceededFrame env dev frame)]⟩ ∧
    ((icmpTimeExceededFrame env dev frame).drop 16).take 2 = [0, 92] ∧
    ((icmpTimeExceededFrame env dev frame).drop 34).take 8 =
      [11, 0, Checksum2 [11, 0, 0, 0, 0, 0, 0, 0] ((frame.drop 14).take 64) % 256,
        Checksum2 [11, 0, 0, 0, 0, 0, 0, 0] ((frame.drop 14).take 64) / 256,
        0, 0, 0, 0] ∧
    (icmpTimeExceededFrame env dev frame).length = 106 := by
  have hdst : ((frame.drop 6).take 6).length = 6 := by simp; omega
  have hsad : ((frame.drop 26).take 4).length = 4 := by simp; omega
  have horig : ((frame.drop 14).take 64).length = 64 := by simp; omega
  have harp : etherTypeOf frame ≠ ETHERTYPE_ARP := by
    unfold etherTypeOf ETHERTYPE_ARP
    rw [htype12, htype13]
    omega
  have hipty : etherTypeOf frame = ETHERTYPE_IP := by
    unfold etherTypeOf ETHERTYPE_IP
    rw [htype12, htype13]
  refine ⟨?_, ?_, ?_, ?_⟩
  · unfold analyzePacket dispatchFrame handleIp
    rw [if_neg (by omega), if_neg (by simp [hdhost]), if_neg harp, if_pos hipty,
      if_neg (by omega), if_neg (by omega), if_pos httl]
  · rw [show icmpTimeExceededFrame env dev frame =
        ((frame.drop 6).take 6 ++ (ifaceOf env dev).hw_addr ++ [8, 0, 69, 0]) ++
        (0 :: 92 :: ([0, 0, 0, 0, 64, 1,
          Checksum ([69, 0, 0, 92, 0, 0, 0, 0, 64, 1, 0, 0] ++
            (ifaceOf env dev).ip_addr ++ (frame.drop 26).take 4) % 256,
          Checksum ([69, 0, 0, 92, 0, 0, 0, 0, 64, 1, 0, 0] ++
            (ifaceOf env dev).ip_addr ++ (frame.drop 26).take 4) / 256] ++
          (ifaceOf env dev).ip_addr ++ (frame.drop 26).take 4 ++
          [11, 0, Checksum2 [11, 0, 0, 0, 0, 0, 0, 0] ((frame.drop 14).take 64) % 256,
            Checksum2 [11, 0, 0, 0, 0, 0, 0, 0] ((frame.drop 14).take 64) / 256,
            0, 0, 0, 0] ++ (frame.drop 14).take 64)) from by
      unfold icmpTimeExceededFrame
      simp [List.append_assoc]]
    rw [List.drop_left' (by simp [hdst, hhw])]
    rfl
  · rw [show icmpTimeExceededFrame env dev frame =
        ((frame.drop 6).take 6 ++ (ifaceOf env dev).hw_addr ++
          ([8, 0, 69, 0, 0, 92, 0, 0, 0, 0, 64, 1,
            Checksum ([69, 0, 0, 92, 0, 0, 0, 0, 64, 1, 0, 0] ++
              (ifaceOf env dev).ip_addr ++ (frame.drop 26).take 4) % 256,
            Checksum ([69, 0, 0, 92, 0, 0, 0, 0, 64, 1, 0, 0] ++
              (ifaceOf env dev).ip_addr ++ (frame.drop 26).take 4) / 256] ++
            (ifaceOf env dev).ip_addr ++ (frame.drop 26).take 4)) ++
        (11 :: 0 ::
          Checksum2 [11, 0, 0, 0, 0, 0, 0, 0] ((frame.drop 14).take 64) % 256 ::
          Checksum2 [11, 0, 0, 0, 0, 0, 0, 0] ((frame.drop 14).take 64) / 256 ::
          0 :: 0 :: 0 :: 0 :: (frame.drop 14).take 64) from by
      unfold icmpTimeExceededFrame
      simp [List.append_assoc]]
    rw [List.drop_left' (by simp [hdst, hhw, hip, hsad])]
    rfl
  · unfold icmpTimeExceededFrame
    simp [hdst, hhw, hip, hsad, horig]

theorem ttl_expired_emits_icmp_witness :
    ((ifaceOf demoEnv 0).hw_addr.length = 6 ∧
      (ifaceOf demoEnv 0).ip_addr.length = 4 ∧
      78 ≤ demoTtl1Frame.length ∧
      demoTtl1Frame.take 6 = (ifaceOf demoEnv 0).hw_addr ∧
      demoTtl1Frame.getD 12 0 = 8 ∧ demoTtl1Frame.getD 13 0 = 0 ∧
      demoTtl1Frame.getD 22 0 ≤ 1) ∧
    (analyzePacket demoEnv (List.replicate 1 freshIp2Mac) 7 0 demoTtl1Frame =
      ⟨some .ttlExceeded, List.replicate 1 freshIp2Mac,
        [(0, icmpTimeExceededFrame demoEnv 0 demoTtl1Frame)]⟩ ∧
    ((icmpTimeExceededFrame demoEnv 0 demoTtl1Frame).drop 16).take 2 = [0, 92] ∧
    ((icmpTimeExceededFrame demoEnv 0 demoTtl1Frame).drop 34).take 8 =
      [11, 0,
        Checksum2 [11, 0, 0, 0, 0, 0, 0, 0] ((demoTtl1Frame.drop 14).take 64) % 256,
        Checksum2 [11, 0, 0, 0, 0, 0, 0, 0] ((demoTtl1Frame.drop 14).take 64) / 256,
        0, 0, 0, 0] ∧
    (icmpTimeExceededFrame demoEnv 0 demoTtl1Frame).length = 106) :=
  ⟨⟨by decide, by decide, by decide, by decide, by decide, by decide, by decide⟩,
    ttl_expired_emits_icmp demoEnv (List.replicate 1 freshIp2Mac) 7 0 demoTtl1Frame
      (by decide) (by decide) (by decide) (by decide) (by decide) (by decide)
      (by decide)⟩

theorem checksum_roundtrip_witness :
    ((∀ b ∈ List.replicate 20 17, b < 256) ∧ (List.replicate 20 17).length ≤ 65536 ∧
      10 % 2 = 0 ∧ 10 + 1 < (List.replicate 20 17).length) ∧
    ((Checksum (setField (List.replicate 20 17) 10
        (Checksum (setField (List.replicate 20 17) 10 0))) = 0 ∨
      Checksum (setField (List.replicate 20 17) 10
        (Checksum (setField (List.replicate 20 17) 10 0))) = 65535) ∧
      (CheckIPChecksum (List.replicate 20 0) [] = true ↔
        (Checksum (zeroChecksumField (List.replicate 20 0) ++ []) = 0 ∨
         Checksum (zeroChecksumField (List.replicate 20 0) ++ []) = 65535))) :=
  ⟨⟨by decide, by decide, by decide, by decide⟩,
    checksum_roundtrip (List.replicate 20 17) 10 (List.replicate 20 0) []
      (by decide) (by decide) (by decide) (by decide)⟩

end ToyRouter
